import Mathlib

/-!
Verification of the dynamic GraphQL schema builder of this repository.

The builder introspects a runtime-supplied set of collection definitions and
synthesizes a GraphQL schema: one object type per collection, query fields
(singular getter, plural lister and, optionally, latest/first/count variants),
mutation fields (create/update/delete) and a Node interface descriptor.
All state is accumulated in a module-level object named defaults.

The embedding below mirrors the JavaScript source.  JavaScript objects used as
ordered string-keyed maps are association lists together with jsSet (keyed
assignment: overwrite in place or append) and jsAssign (the lodash assign).
Promise chains are embedded as a Step structure holding the settled outcome
together with the list of ORM adapter invocations performed along the chain;
the external Policy Gate and ORM adapter registry are supplied as environments.

External collaborators that are not part of the sources (the helpers type
mapper, the policy utilities, the per-engine adapter modules) are modelled
from the spec; each such definition carries a doc comment saying so.
-/

namespace Strapi

/-- JavaScript-like runtime values: null/undefined collapse to null, strings,
integers, objects as ordered key-value lists, arrays. -/
inductive JVal where
  | null
  | str (s : String)
  | num (n : Int)
  | obj (fields : List (String × JVal))
  | arr (elems : List JVal)

/-- Property read on a JavaScript value; a missing key or a non-object base
yields null (undefined is collapsed to null). -/
def jsGet (v : JVal) (k : String) : JVal :=
  match v with
  | .obj fields => (fields.lookup k).getD .null
  | _ => .null

/-- ASCII lower-casing of one character, modelling the JavaScript
String.prototype.toLowerCase used by the builder on identifier strings. -/
def lowerChar : Char → Char
  | 'A' => 'a' | 'B' => 'b' | 'C' => 'c' | 'D' => 'd' | 'E' => 'e' | 'F' => 'f'
  | 'G' => 'g' | 'H' => 'h' | 'I' => 'i' | 'J' => 'j' | 'K' => 'k' | 'L' => 'l'
  | 'M' => 'm' | 'N' => 'n' | 'O' => 'o' | 'P' => 'p' | 'Q' => 'q' | 'R' => 'r'
  | 'S' => 's' | 'T' => 't' | 'U' => 'u' | 'V' => 'v' | 'W' => 'w' | 'X' => 'x'
  | 'Y' => 'y' | 'Z' => 'z'
  | c => c

/-- ASCII upper-casing of one character, for the lodash capitalize helper. -/
def upperChar : Char → Char
  | 'a' => 'A' | 'b' => 'B' | 'c' => 'C' | 'd' => 'D' | 'e' => 'E' | 'f' => 'F'
  | 'g' => 'G' | 'h' => 'H' | 'i' => 'I' | 'j' => 'J' | 'k' => 'K' | 'l' => 'L'
  | 'm' => 'M' | 'n' => 'N' | 'o' => 'O' | 'p' => 'P' | 'q' => 'Q' | 'r' => 'R'
  | 's' => 'S' | 't' => 'T' | 'u' => 'U' | 'v' => 'V' | 'w' => 'W' | 'x' => 'X'
  | 'y' => 'Y' | 'z' => 'Z'
  | c => c

/-- JavaScript String.prototype.toLowerCase restricted to ASCII letters. -/
def jsToLower (s : String) : String :=
  ⟨s.data.map lowerChar⟩

/-- The lodash capitalize helper: upper-case the first character and
lower-case the rest. -/
def lodashCapitalize (s : String) : String :=
  match s.data with
  | [] => ""
  | c :: rest => ⟨upperChar c :: rest.map lowerChar⟩

/-- Keyed assignment on a JavaScript object viewed as an ordered association
list: an existing key keeps its position and gets the new value, a fresh key
is appended at the end. -/
def jsSet {α : Type} (l : List (String × α)) (k : String) (v : α) :
    List (String × α) :=
  match l with
  | [] => [(k, v)]
  | (k1, v1) :: t => if k1 = k then (k1, v) :: t else (k1, v1) :: jsSet t k v

/-- The lodash assign: copy every key of the second object onto the first,
in order. -/
def jsAssign {α : Type} (a b : List (String × α)) : List (String × α) :=
  b.foldl (fun acc kv => jsSet acc kv.1 kv.2) a

/-- One attribute of a collection definition: a plain scalar rule, a
belongs-to relation (a model property in the source) or a has-many relation
(a collection property with a via inverse field in the source).  Every
variant carries the required flag read by the builder. -/
inductive AttrRule where
  | scalar (kind : String) (required : Bool)
  | belongsTo (model : String) (required : Bool)
  | hasMany (collection : String) (via : String) (required : Bool)
deriving DecidableEq, Repr

/-- Whether the rules object has a model property (belongs-to relation). -/
def AttrRule.hasModelProp : AttrRule → Bool
  | .belongsTo _ _ => true
  | _ => false

/-- Whether the rules object has a collection property (has-many relation). -/
def AttrRule.hasCollectionProp : AttrRule → Bool
  | .hasMany _ _ _ => true
  | _ => false

/-- The required flag of the rules object. -/
def AttrRule.required : AttrRule → Bool
  | .scalar _ r => r
  | .belongsTo _ r => r
  | .hasMany _ _ r => r

/-- The value the source passes to the type mapper helpers: either an
attribute rules object, or a raw string (the builder passes the primary-key
name itself at the update/delete primary-key argument site). -/
inductive MapperIn where
  | rule (r : AttrRule)
  | raw (s : String)
deriving DecidableEq, Repr

/-- GraphQL type expressions as the builder assembles them.  References to
generated object types are by the key used in the types table.  The two
mapper constructors represent the external helpers module symbolically:
Modelled from the spec: the Type Mapper (helpers convertToGraphQLQueryType
and convertToGraphQLRelationType, not among the sources) is a deterministic
pure function of its argument, so its result is embedded as an opaque-free
constructor applied to the exact argument the source passes. -/
inductive GType where
  | gstring
  | gint
  | nonNull (t : GType)
  | glist (t : GType)
  | ref (name : String)
  | node
  | queryMapped (i : MapperIn)
  | relationMapped (r : AttrRule)
deriving DecidableEq, Repr

/-- A collection definition as the builder consumes it: the identity reported
by the adapter getCollectionIdentity, the primary-key name (also the result of
the getPK utility), the storage engine identifier (the getORM utility) and the
ordered attribute map.  Modelled from the spec: getCollectionIdentity, getPK
and getORM live outside the sources; they are embedded as fields of the
collection record. -/
structure Collection where
  identity : String
  primaryKey : String
  orm : String
  attributes : List (String × AttrRule)
deriving DecidableEq, Repr

/-- The parameters object handed to getGraphQLSchema; an absent option key is
none. -/
structure Params where
  collections : List (String × Collection)
  usefulQueries : Option Bool := none
  ignoreMutations : Option Bool := none
deriving DecidableEq, Repr

/-- The operations of the per-engine ORM adapter modules. -/
inductive AdapterOp where
  | fetch
  | fetchAll
  | fetchLatest
  | fetchFirst
  | count
  | create
  | update
  | delete
deriving DecidableEq, Repr

/-- One recorded invocation of an ORM adapter operation: the operation, the
collection identity it was given and the remaining data arguments. -/
structure Call where
  op : AdapterOp
  identity : String
  payload : List JVal

/-- The settled state of a JavaScript promise: fulfilled with a value, or
rejected (the rejection reason is never inspected by the builder, every
rejection handler ignores its argument). -/
inductive JsP (α : Type) where
  | fulfilled (a : α)
  | rejected

/-- A promise chain evaluation: the settled outcome together with the list of
adapter invocations the chain performed. -/
structure Step (α : Type) where
  trace : List Call
  out : JsP α

/-- Promise then with a promise-returning callback; a rejected chain skips the
callback and stays rejected. -/
def Step.thenF {α β : Type} (s : Step α) (f : α → Step β) : Step β :=
  match s.out with
  | .fulfilled a =>
    let t := f a
    ⟨s.trace ++ t.trace, t.out⟩
  | .rejected => ⟨s.trace, .rejected⟩

/-- Promise then with a plain-value callback. -/
def Step.thenV {α β : Type} (s : Step α) (f : α → β) : Step β :=
  match s.out with
  | .fulfilled a => ⟨s.trace, .fulfilled (f a)⟩
  | .rejected => ⟨s.trace, .rejected⟩

/-- Promise catch with a handler returning the plain value v: a rejected chain
settles fulfilled with v, a fulfilled chain is unchanged. -/
def Step.catchV {α : Type} (s : Step α) (v : α) : Step α :=
  match s.out with
  | .fulfilled a => ⟨s.trace, .fulfilled a⟩
  | .rejected => ⟨s.trace, .fulfilled v⟩

/-- The Policy Gate, supplied as an environment.  Modelled from the spec:
check(context, category, modelIdentity, operationName) resolves when every
configured policy accepts and rejects otherwise; the builder only observes
the settled state. -/
def PolicyEnv : Type := String → String → String → JsP Unit

/-- The ORM adapter registry, supplied as an environment.  Modelled from the
spec: each operation receives the collection identity and its data arguments
and resolves with data or rejects.  The per-engine functions table lookup of
the source is absorbed into this environment. -/
def AdapterEnv : Type := AdapterOp → String → List JVal → JsP JVal

/-- The utils applyPolicies call at the head of every generated resolver; it
performs no adapter invocation. -/
def applyPolicies (penv : PolicyEnv) (_rootValue : JVal)
    (category identity opName : String) : Step Unit :=
  ⟨[], penv category identity opName⟩

/-- An adapter invocation: recorded in the trace, settled by the environment. -/
def adapterCall (aenv : AdapterEnv) (op : AdapterOp) (identity : String)
    (payload : List JVal) : Step JVal :=
  ⟨[⟨op, identity, payload⟩], aenv op identity payload⟩

/-- A generated resolver: rootValue and the GraphQL arguments object, then the
two external environments. -/
def Resolver : Type := JVal → JVal → PolicyEnv → AdapterEnv → Step JVal

/-- Resolver of the singular getter query field: policy check, fetch, an
identity then step, and a catch converting any failure to null. -/
def singularResolve (identity : String) : Resolver :=
  fun rootValue criteria penv aenv =>
    (((applyPolicies penv rootValue "queries" identity identity).thenF
        (fun _ => adapterCall aenv .fetch identity [criteria])).thenV
      (fun data => data)).catchV .null

/-- Resolver of the plural lister query field. -/
def pluralResolve (identity : String) : Resolver :=
  fun rootValue criteria penv aenv =>
    (((applyPolicies penv rootValue "queries" identity (identity ++ "s")).thenF
        (fun _ => adapterCall aenv .fetchAll identity [criteria])).thenV
      (fun data => data)).catchV .null

/-- Resolver of the getLatest query field. -/
def getLatestResolve (identity : String) : Resolver :=
  fun rootValue criteria penv aenv =>
    (((applyPolicies penv rootValue "queries" identity
          ("getLatest" ++ identity ++ "s")).thenF
        (fun _ => adapterCall aenv .fetchLatest identity [criteria])).thenV
      (fun data => data)).catchV .null

/-- Resolver of the getFirst query field. -/
def getFirstResolve (identity : String) : Resolver :=
  fun rootValue criteria penv aenv =>
    (((applyPolicies penv rootValue "queries" identity
          ("getFirst" ++ identity ++ "s")).thenF
        (fun _ => adapterCall aenv .fetchFirst identity [criteria])).thenV
      (fun data => data)).catchV .null

/-- Resolver of the count query field; the source declares it with the single
parameter rootValue, so the arguments object is ignored and count receives no
criteria. -/
def countResolve (identity : String) : Resolver :=
  fun rootValue _criteria penv aenv =>
    (((applyPolicies penv rootValue "queries" identity
          ("count" ++ identity ++ "s")).thenF
        (fun _ => adapterCall aenv .count identity [])).thenV
      (fun data => data)).catchV .null

/-- Resolver of the create mutation field; unlike the others it has no
intermediate identity then step before the catch. -/
def createResolve (identity : String) : Resolver :=
  fun rootValue argsv penv aenv =>
    ((applyPolicies penv rootValue "mutations" identity
          ("create" ++ identity)).thenF
        (fun _ => adapterCall aenv .create identity [rootValue, argsv])).catchV
      .null

/-- Resolver of the update mutation field. -/
def updateResolve (identity : String) : Resolver :=
  fun rootValue argsv penv aenv =>
    (((applyPolicies penv rootValue "mutations" identity
          ("update" ++ identity)).thenF
        (fun _ => adapterCall aenv .update identity [rootValue, argsv])).thenV
      (fun data => data)).catchV .null

/-- Resolver of the delete mutation field. -/
def deleteResolve (identity : String) : Resolver :=
  fun rootValue argsv penv aenv =>
    (((applyPolicies penv rootValue "mutations" identity
          ("delete" ++ identity)).thenF
        (fun _ => adapterCall aenv .delete identity [rootValue, argsv])).thenV
      (fun data => data)).catchV .null

/-- A query or mutation field descriptor: the field type, the argument map
(none when the source never assigns an args key, as for the count query field
before date-filter injection and for the create mutation field) and the
resolver.  The redundant name property inside each argument descriptor of the
source is dropped; an argument is its key paired with its type. -/
structure FieldDef where
  type : GType
  args : Option (List (String × GType)) := none
  resolve : Option Resolver := none

/-- The stored global Node lookup field descriptor built by
buildNodeInterface.  Only the structural surface is embedded; its resolver
(the concurrent fan-out over all collections) is not consulted by any theorem
of this development. -/
structure NodeField where
  name : String
  type : GType
  args : List (String × GType)

/-- The descriptor assigned to defaults.nodeFields by buildNodeInterface. -/
def nodeFieldsDef : NodeField :=
  { name := "Node"
    type := .node
    args := [("id", .nonNull .gstring)] }

/-- The module-level defaults accumulator.  The types table stores, under the
collection identity, the name of the generated object type (the object value
itself is the fields map produced by buildTypeFields below). -/
structure Defaults where
  collections : List (String × Collection)
  usefulQueries : Bool
  ignoreMutations : Bool
  types : List (String × String)
  queryFields : List (String × FieldDef)
  mutations : List (String × FieldDef)
  functions : List String
  nodeFields : Option NodeField

/-- The initial value of the defaults object at module load: only the
collections and usefulQueries keys exist; every other key is absent, and the
ignoreMutations read compares with strict equality against true, so an absent
key behaves as false. -/
def defaults0 : Defaults :=
  { collections := []
    usefulQueries := true
    ignoreMutations := false
    types := []
    queryFields := []
    mutations := []
    functions := []
    nodeFields := none }

/-- A field of a generated object type.  Relation resolvers read the live
defaults object when they run, so they take the registry as a run-time
parameter. -/
structure TypeFieldDef where
  type : GType
  resolve : Option (Defaults → JVal → PolicyEnv → AdapterEnv → Step JVal)

/-- JavaScript calling convention for the relation resolver call sites: a
function declared with two value parameters invoked with three arguments
binds the first two and discards the third. -/
def callWithThree (f : Resolver) (a b _c : JVal) :
    PolicyEnv → AdapterEnv → Step JVal :=
  f a b

/-- The belongs-to field resolver of buildType: it builds a criteria object
keyed by the primary key of the parent collection, holding the target
primary-key value read off the already-fetched parent object, and delegates
to the singular query field of the target looked up in the live defaults.  A
failed lookup in the source throws on a property read of undefined; that is
embedded as a rejected outcome. -/
def belongsToResolve (c : Collection) (attrKey model : String) :
    Defaults → JVal → PolicyEnv → AdapterEnv → Step JVal :=
  fun d object penv aenv =>
    match d.collections.lookup model with
    | none => ⟨[], .rejected⟩
    | some target =>
      let criteria : JVal :=
        .obj [(c.primaryKey, jsGet (jsGet object attrKey) target.primaryKey)]
      match d.queryFields.lookup (jsToLower model) with
      | none => ⟨[], .rejected⟩
      | some f =>
        match f.resolve with
        | none => ⟨[], .rejected⟩
        | some r => r object criteria penv aenv

/-- The has-many field resolver of buildType: it builds a criteria object
mapping the lower-cased via field to the primary-key value of the parent
object and calls the plural query field of the target with the three
arguments (object, empty object, where-wrapper); the plural resolver declares
only two parameters, so the where-wrapper is the discarded third argument. -/
def hasManyResolve (c : Collection) (via coll : String) :
    Defaults → JVal → PolicyEnv → AdapterEnv → Step JVal :=
  fun d object penv aenv =>
    let criteria : JVal := .obj [(jsToLower via, jsGet object c.primaryKey)]
    match d.queryFields.lookup (jsToLower coll ++ "s") with
    | none => ⟨[], .rejected⟩
    | some f =>
      match f.resolve with
      | none => ⟨[], .rejected⟩
      | some r =>
        callWithThree r object (.obj []) (.obj [("where", criteria)]) penv aenv

/-- One attribute field of a generated object type, following the three-way
branch of buildType: belongs-to relation, has-many relation, plain scalar
(non-null when required). -/
def mkTypeField (c : Collection) (attrKey : String) (rules : AttrRule) :
    TypeFieldDef :=
  match rules with
  | .belongsTo model _ =>
    { type := .ref (lodashCapitalize model)
      resolve := some (belongsToResolve c attrKey model) }
  | .hasMany coll via _ =>
    { type := .glist (.ref (lodashCapitalize coll))
      resolve := some (hasManyResolve c via coll) }
  | .scalar _ _ =>
    { type :=
        if rules.required then .nonNull (.queryMapped (.rule rules))
        else .queryMapped (.rule rules)
      resolve := none }

/-- The fields map of the generated object type of a collection: one field per
attribute, then the synthetic id and type fields of the Node capability,
assigned with object-key semantics. -/
def buildTypeFields (c : Collection) : List (String × TypeFieldDef) :=
  let fields := c.attributes.foldl
    (fun fs kv => jsSet fs kv.1 (mkTypeField c kv.1 kv.2)) []
  let fields := jsSet fields "id"
    { type := .nonNull .gstring, resolve := none }
  let fields := jsSet fields "type"
    { type := .nonNull .gstring, resolve := none }
  fields

/-- The singular getter query field of a collection: typed by the generated
object type, one required string id argument, the singular resolver. -/
def singularField (c : Collection) : FieldDef :=
  { type := .ref c.identity
    args := some [("id", .nonNull .gstring)]
    resolve := some (singularResolve c.identity) }

/-- The plural lister query field: list-typed, optional limit/skip/sort
arguments, the plural resolver. -/
def pluralField (c : Collection) : FieldDef :=
  { type := .glist (.ref c.identity)
    args := some [("limit", .gint), ("skip", .gint), ("sort", .gstring)]
    resolve := some (pluralResolve c.identity) }

/-- The getLatest query field: list-typed, required count argument. -/
def latestField (c : Collection) : FieldDef :=
  { type := .glist (.ref c.identity)
    args := some [("count", .nonNull .gint)]
    resolve := some (getLatestResolve c.identity) }

/-- The getFirst query field: list-typed, required count argument. -/
def firstField (c : Collection) : FieldDef :=
  { type := .glist (.ref c.identity)
    args := some [("count", .nonNull .gint)]
    resolve := some (getFirstResolve c.identity) }

/-- The count query field: int-typed and declared without an args key. -/
def countField (c : Collection) : FieldDef :=
  { type := .gint
    args := none
    resolve := some (countResolve c.identity) }

/-- The date-filter injection applied to one field: initialize an absent or
empty args object to the empty map, then assign the start and end string
arguments. -/
def addDates (f : FieldDef) : FieldDef :=
  let base := match f.args with
    | none => []
    | some a => a
  { f with args := some (base ++ [("start", .gstring), ("end", .gstring)]) }

/-- The date-filter pass of buildQueryFields: every field except the one named
by the lower-cased collection identity (the singular getter, omitted by the
lodash omit) receives the start and end arguments. -/
def applyDateFilters (lcName : String) (fields : List (String × FieldDef)) :
    List (String × FieldDef) :=
  fields.map fun kf => if kf.1 = lcName then kf else (kf.1, addDates kf.2)

/-- The query fields one collection contributes, in assignment order: the
singular getter, the plural lister and, when usefulQueries holds, the
getLatest/getFirst/count variants; then the date-filter pass.  The five keys
have pairwise different lengths, so the successive object-key assignments of
the source never overwrite each other and the object is this ordered list. -/
def buildQueryFieldsFor (useful : Bool) (c : Collection) :
    List (String × FieldDef) :=
  let fields :=
    [(jsToLower c.identity, singularField c),
     (jsToLower c.identity ++ "s", pluralField c)] ++
    (if useful then
      [("getLatest" ++ c.identity ++ "s", latestField c),
       ("getFirst" ++ c.identity ++ "s", firstField c),
       ("count" ++ c.identity ++ "s", countField c)]
     else [])
  applyDateFilters (jsToLower c.identity) fields

/-- The argument partition of buildMutation over the attribute map: plain
required attributes become non-null query-mapped arguments, plain optional
ones nullable query-mapped arguments; relation attributes follow the same
required split but go through the relation mapper.  The redundant inner
conditionals of the source are kept. -/
def buildArgs (attrs : List (String × AttrRule)) :
    List (String × GType) × List (String × GType) :=
  attrs.foldl
    (fun acc kv =>
      let k := kv.1
      let rules := kv.2
      if !rules.hasModelProp && !rules.hasCollectionProp && rules.required then
        (jsSet acc.1 k
          (if rules.required then .nonNull (.queryMapped (.rule rules))
           else .queryMapped (.rule rules)), acc.2)
      else if !rules.hasModelProp && !rules.hasCollectionProp
          && !rules.required then
        (acc.1, jsSet acc.2 k (.queryMapped (.rule rules)))
      else if rules.required then
        (jsSet acc.1 k
          (if rules.required then .nonNull (.relationMapped rules)
           else .relationMapped rules), acc.2)
      else
        (acc.1, jsSet acc.2 k
          (if rules.required then .nonNull (.relationMapped rules)
           else .relationMapped rules)))
    ([], [])

/-- The one-key object built by the lodash set call: the primary key mapped to
the non-null result of the query type mapper applied to the primary-key name
itself (the source passes the string PK, not the attribute rule, to the
helper). -/
def argPK (c : Collection) : List (String × GType) :=
  [(c.primaryKey, .nonNull (.queryMapped (.raw c.primaryKey)))]

/-- The create mutation field: the source assigns only a type and a resolver,
never an args key. -/
def createField (c : Collection) : FieldDef :=
  { type := .ref c.identity
    args := none
    resolve := some (createResolve c.identity) }

/-- The update mutation field: the required partition with the primary-key
argument assigned over it. -/
def updateField (c : Collection) : FieldDef :=
  { type := .ref c.identity
    args := some (jsAssign (buildArgs c.attributes).1 (argPK c))
    resolve := some (updateResolve c.identity) }

/-- The delete mutation field: the optional partition with the primary-key
argument assigned over it. -/
def deleteField (c : Collection) : FieldDef :=
  { type := .ref c.identity
    args := some (jsAssign (buildArgs c.attributes).2 (argPK c))
    resolve := some (deleteResolve c.identity) }

/-- The mutation fields one collection contributes, in assignment order.  The
three keys differ in their first character, so the object is this ordered
list. -/
def buildMutationFields (c : Collection) : List (String × FieldDef) :=
  [("create" ++ c.identity, createField c),
   ("update" ++ c.identity, updateField c),
   ("delete" ++ c.identity, deleteField c)]

/-- The engine-resolution pass: cache each distinct storage-engine identifier
once.  Modelled from the spec: the adapter module loaded per engine is
external, so only the cached identifiers are tracked. -/
def functionsPass (cols : List (String × Collection)) : List String :=
  cols.foldl
    (fun fs kc => if fs.contains kc.2.orm then fs else fs ++ [kc.2.orm]) []

/-- The type-synthesis pass: store, under each collection identity, the
capitalized name of the generated object type (its fields map is
buildTypeFields of the collection). -/
def buildTypesPass (cols : List (String × Collection)) :
    List (String × String) :=
  cols.foldl
    (fun ts kc => jsSet ts kc.2.identity (lodashCapitalize kc.2.identity)) []

/-- The query-synthesis pass: assign the fields of every collection onto the
queryFields object in collection order. -/
def buildQueryFieldsPass (useful : Bool) (cols : List (String × Collection)) :
    List (String × FieldDef) :=
  cols.foldl (fun qf kc => jsAssign qf (buildQueryFieldsFor useful kc.2)) []

/-- The mutation-synthesis pass: assign the mutation fields of every
collection onto the mutations object in collection order. -/
def buildMutationsPass (cols : List (String × Collection)) :
    List (String × FieldDef) :=
  cols.foldl (fun ms kc => jsAssign ms (buildMutationFields kc.2)) []

/-- buildNodeInterface: store the Node interface lookup descriptor on the
defaults object. -/
def buildNodeInterface (d : Defaults) : Defaults :=
  { d with nodeFields := some nodeFieldsDef }

/-- getQueries: create the required keys (resetting types, queryFields and
functions), build the Node interface, then run the engine, type and query
passes in order.  The root Queries object exposes the queryFields table. -/
def getQueries (d : Defaults) : Defaults :=
  let d1 := { d with types := [], queryFields := [], functions := [] }
  let d2 := buildNodeInterface d1
  let d3 := { d2 with functions := functionsPass d2.collections }
  let d4 := { d3 with types := buildTypesPass d3.collections }
  { d4 with
    queryFields := buildQueryFieldsPass d4.usefulQueries d4.collections }

/-- getMutations: reset the mutations key and run the mutation pass. -/
def getMutations (d : Defaults) : Defaults :=
  { d with mutations := buildMutationsPass d.collections }

/-- The lodash assign of the params object onto the module defaults: a key
present in params overwrites, an absent key leaves the stored value. -/
def mergeParams (st : Defaults) (p : Params) : Defaults :=
  { st with
    collections := p.collections
    usefulQueries := p.usefulQueries.getD st.usefulQueries
    ignoreMutations := p.ignoreMutations.getD st.ignoreMutations }

/-- The built schema handed to the callback: the snapshot of the root query
fields and, unless mutations are ignored, the root mutation fields (the
lodash omit of null drops the mutation key). -/
structure BuiltSchema where
  queryFields : List (String × FieldDef)
  mutation : Option (List (String × FieldDef))

/-- getGraphQLSchema: fail through the error channel when the collection map
is empty; otherwise assign the params onto the module defaults, build the
query root, build the mutation root unless ignoreMutations is strictly true,
and hand the schema to the callback.  The result pairs the defaults object as
left behind for the next invocation with the callback outcome. -/
def getGraphQLSchema (st : Defaults) (p : Params) :
    Defaults × Except String BuiltSchema :=
  if p.collections.isEmpty then
    (st, .error "GraphQL server has not been started because there are no models")
  else
    let d := mergeParams st p
    let dq := getQueries d
    if dq.ignoreMutations = true then
      (dq, .ok { queryFields := dq.queryFields, mutation := none })
    else
      let dm := getMutations dq
      (dm, .ok { queryFields := dm.queryFields, mutation := some dm.mutations })

/-- The Article collection of the spec scenario: string primary key id and a
required string title. -/
def articleC : Collection :=
  { identity := "Article"
    primaryKey := "id"
    orm := "bookshelf"
    attributes := [("title", .scalar "string" true)] }

/-- The Author collection of the spec scenario: string primary key id, a
required string name and a has-many relation to Article with inverse field
authorId. -/
def authorC : Collection :=
  { identity := "Author"
    primaryKey := "id"
    orm := "bookshelf"
    attributes :=
      [("name", .scalar "string" true),
       ("articles", .hasMany "Article" "authorId" false)] }

/-- The build parameters of the spec scenario, with both options left absent. -/
def scenarioParams : Params :=
  { collections := [("article", articleC), ("author", authorC)] }

/-- The defaults object left behind by building the spec scenario from module
load. -/
def builtScenario : Defaults :=
  (getGraphQLSchema defaults0 scenarioParams).1

/-- A fetched author row. -/
def authorObj : JVal :=
  .obj [("id", .str "a1"), ("name", .str "Ada")]

/-- A Policy Gate that accepts every check. -/
def policyAccept : PolicyEnv := fun _ _ _ => .fulfilled ()

/-- A Policy Gate that rejects every check. -/
def policyReject : PolicyEnv := fun _ _ _ => .rejected

/-- An adapter registry whose every operation succeeds with an empty array. -/
def adapterOkEnv : AdapterEnv := fun _ _ _ => .fulfilled (.arr [])

/-- An adapter registry whose every operation fails. -/
def adapterFailEnv : AdapterEnv := fun _ _ _ => .rejected

/-- Running the articles field resolver of the generated Author type against
the built scenario registry, on the fetched author row, with an accepting
Policy Gate. -/
def authorArticlesStep : Step JVal :=
  match (buildTypeFields authorC).lookup "articles" with
  | some f =>
    match f.resolve with
    | some r => r builtScenario authorObj policyAccept adapterOkEnv
    | none => ⟨[], .rejected⟩
  | none => ⟨[], .rejected⟩

/-- First build call of the rebuild experiment: usefulQueries explicitly
false. -/
def rebuildP1 : Params :=
  { collections := [("article", articleC)], usefulQueries := some false }

/-- Second build call of the rebuild experiment: same collections, both
options omitted. -/
def rebuildP2 : Params :=
  { collections := [("article", articleC)] }

/-- The module state after the first build call. -/
def rebuildState : Defaults :=
  (getGraphQLSchema defaults0 rebuildP1).1

/-- The query field names of a build outcome (empty on the error channel). -/
def okNames (r : Except String BuiltSchema) : List String :=
  match r with
  | .ok s => s.queryFields.map Prod.fst
  | .error _ => []

/-! Helper lemmas about the string utilities and the object-as-list
operations, followed by the claim theorems. -/

theorem lowerChar_ne_upper (c : Char) :
    lowerChar c ≠ 'L' ∧ lowerChar c ≠ 'F' ∧ lowerChar c ≠ 'N' := by
  unfold lowerChar
  split <;> simp_all

theorem not_mem_jsToLower {u : Char} (hu : ∀ c, lowerChar c ≠ u)
    (s : String) : u ∉ (jsToLower s).data := by
  show u ∉ s.data.map lowerChar
  intro hmem
  rcases List.mem_map.mp hmem with ⟨c, _, hc⟩
  exact hu c hc

theorem jsToLower_length (s : String) : (jsToLower s).length = s.length := by
  show (s.data.map lowerChar).length = s.data.length
  simp

theorem string_ne_of_length {a b : String} (h : a.length ≠ b.length) :
    a ≠ b :=
  fun he => h (he ▸ rfl)

theorem queryKeys_ne (c : Collection) :
    (jsToLower c.identity ++ "s" ≠ jsToLower c.identity) ∧
    ("getLatest" ++ c.identity ++ "s" ≠ jsToLower c.identity) ∧
    ("getFirst" ++ c.identity ++ "s" ≠ jsToLower c.identity) ∧
    ("count" ++ c.identity ++ "s" ≠ jsToLower c.identity) ∧
    ("getLatest" ++ c.identity ++ "s" ≠ jsToLower c.identity ++ "s") ∧
    ("getFirst" ++ c.identity ++ "s" ≠ jsToLower c.identity ++ "s") ∧
    ("count" ++ c.identity ++ "s" ≠ jsToLower c.identity ++ "s") ∧
    ("getFirst" ++ c.identity ++ "s" ≠ "getLatest" ++ c.identity ++ "s") ∧
    ("count" ++ c.identity ++ "s" ≠ "getLatest" ++ c.identity ++ "s") ∧
    ("count" ++ c.identity ++ "s" ≠ "getFirst" ++ c.identity ++ "s") := by
  have hs : ("s" : String).length = 1 := rfl
  have hgl : ("getLatest" : String).length = 9 := rfl
  have hgf : ("getFirst" : String).length = 8 := rfl
  have hco : ("count" : String).length = 5 := rfl
  refine ⟨?_, ?_, ?_, ?_, ?_, ?_, ?_, ?_, ?_, ?_⟩ <;>
    apply string_ne_of_length <;>
    simp [String.length_append, jsToLower_length, hs, hgl, hgf, hco] <;>
    omega

theorem lookup_cons {α : Type} (k k' : String) (v : α)
    (t : List (String × α)) :
    List.lookup k' ((k, v) :: t) = if k' = k then some v else t.lookup k' := by
  show (match k' == k with
    | true => some v
    | false => List.lookup k' t) = _
  cases he : k' == k
  · rw [if_neg (ne_of_beq_false he)]
  · rw [if_pos (eq_of_beq he)]

theorem lookup_jsSet {α : Type} (l : List (String × α)) (k k' : String)
    (v : α) :
    (jsSet l k v).lookup k' = if k' = k then some v else l.lookup k' := by
  induction l with
  | nil =>
    show List.lookup k' [(k, v)] = _
    rw [lookup_cons]
  | cons hd t ih =>
    obtain ⟨k1, v1⟩ := hd
    by_cases e1 : k1 = k <;> by_cases e2 : k' = k1 <;>
      simp_all [jsSet, lookup_cons]

theorem lookup_isSome_jsAssign {α : Type} (a b : List (String × α))
    (k : String) :
    ((jsAssign a b).lookup k).isSome ↔
      (a.lookup k).isSome ∨ (b.lookup k).isSome := by
  induction b generalizing a with
  | nil => simp [jsAssign]
  | cons hd t ih =>
    obtain ⟨k1, v1⟩ := hd
    have hstep : jsAssign a ((k1, v1) :: t) = jsAssign (jsSet a k1 v1) t := rfl
    rw [hstep, ih]
    by_cases e : k = k1 <;>
      simp_all [lookup_jsSet, lookup_cons]

theorem lookup_nil {α : Type} (k : String) :
    List.lookup k ([] : List (String × α)) = none := rfl

theorem lookup_fieldsFor (useful : Bool) (c : Collection) (n : String) :
    (buildQueryFieldsFor useful c).lookup n =
      if n = jsToLower c.identity then some (singularField c)
      else if n = jsToLower c.identity ++ "s" then
        some (addDates (pluralField c))
      else if useful = true ∧ n = "getLatest" ++ c.identity ++ "s" then
        some (addDates (latestField c))
      else if useful = true ∧ n = "getFirst" ++ c.identity ++ "s" then
        some (addDates (firstField c))
      else if useful = true ∧ n = "count" ++ c.identity ++ "s" then
        some (addDates (countField c))
      else none := by
  obtain ⟨h1, h2, h3, h4, h5, h6, h7, h8, h9, h10⟩ := queryKeys_ne c
  cases useful <;>
    simp only [buildQueryFieldsFor, applyDateFilters, List.map, if_pos,
      if_neg h1, if_neg h2, if_neg h3, if_neg h4, if_true, if_false,
      List.append_nil, List.cons_append, List.nil_append] <;>
    by_cases e1 : n = jsToLower c.identity <;>
    by_cases e2 : n = jsToLower c.identity ++ "s" <;>
    by_cases e3 : n = "getLatest" ++ c.identity ++ "s" <;>
    by_cases e4 : n = "getFirst" ++ c.identity ++ "s" <;>
    by_cases e5 : n = "count" ++ c.identity ++ "s" <;>
    simp_all [lookup_cons, lookup_nil]

theorem lookup_isSome_queryPass (useful : Bool)
    (cols : List (String × Collection)) (n : String) :
    ((buildQueryFieldsPass useful cols).lookup n).isSome ↔
      ∃ kc ∈ cols, ((buildQueryFieldsFor useful kc.2).lookup n).isSome := by
  have gen : ∀ init : List (String × FieldDef),
      ((cols.foldl (fun qf kc => jsAssign qf (buildQueryFieldsFor useful kc.2))
          init).lookup n).isSome ↔
        (init.lookup n).isSome ∨
          ∃ kc ∈ cols, ((buildQueryFieldsFor useful kc.2).lookup n).isSome := by
    induction cols with
    | nil => intro init; simp
    | cons hd t ih =>
      intro init
      simp only [List.foldl_cons]
      rw [ih, lookup_isSome_jsAssign]
      constructor
      · rintro (⟨ha | hb⟩ | ⟨kc, hkc, hl⟩)
        · exact Or.inl ha
        · exact Or.inr ⟨hd, List.mem_cons_self hd t, hb⟩
        · exact Or.inr ⟨kc, List.mem_cons_of_mem hd hkc, hl⟩
      · rintro (ha | ⟨kc, hkc, hl⟩)
        · exact Or.inl (Or.inl ha)
        · rcases List.mem_cons.mp hkc with he | ht
          · exact Or.inl (Or.inr (he ▸ hl))
          · exact Or.inr ⟨kc, ht, hl⟩
  simpa using gen []

theorem lookup_mutationFields (c : Collection) (n : String) :
    (buildMutationFields c).lookup n =
      if n = "create" ++ c.identity then some (createField c)
      else if n = "update" ++ c.identity then some (updateField c)
      else if n = "delete" ++ c.identity then some (deleteField c)
      else none := by
  simp only [buildMutationFields, lookup_cons]
  have hcu : ("create" ++ c.identity : String) ≠ "update" ++ c.identity := by
    intro he
    have := congrArg String.data he
    simp [String.data_append] at this
  have hcd : ("create" ++ c.identity : String) ≠ "delete" ++ c.identity := by
    intro he
    have := congrArg String.data he
    simp [String.data_append] at this
  have hud : ("update" ++ c.identity : String) ≠ "delete" ++ c.identity := by
    intro he
    have := congrArg String.data he
    simp [String.data_append] at this
  by_cases e1 : n = "create" ++ c.identity <;>
    by_cases e2 : n = "update" ++ c.identity <;>
    by_cases e3 : n = "delete" ++ c.identity <;>
    simp_all [lookup_nil]

theorem chainV_reject (penv : PolicyEnv) (aenv : AdapterEnv) (rv : JVal)
    (cat id opName : String) (op : AdapterOp) (pl : List JVal)
    (h : penv cat id opName = .rejected) :
    (((applyPolicies penv rv cat id opName).thenF
        (fun _ => adapterCall aenv op id pl)).thenV
      (fun data => data)).catchV .null = ⟨[], .fulfilled .null⟩ := by
  simp [applyPolicies, adapterCall, Step.thenF, Step.thenV, Step.catchV, h]

theorem chainC_reject (penv : PolicyEnv) (aenv : AdapterEnv) (rv : JVal)
    (cat id opName : String) (op : AdapterOp) (pl : List JVal)
    (h : penv cat id opName = .rejected) :
    ((applyPolicies penv rv cat id opName).thenF
        (fun _ => adapterCall aenv op id pl)).catchV .null =
      ⟨[], .fulfilled .null⟩ := by
  simp [applyPolicies, adapterCall, Step.thenF, Step.catchV, h]

theorem chainV_adapterFail (penv : PolicyEnv) (aenv : AdapterEnv) (rv : JVal)
    (cat id opName : String) (op : AdapterOp) (pl : List JVal)
    (hp : penv cat id opName = .fulfilled ())
    (ha : aenv op id pl = .rejected) :
    ((((applyPolicies penv rv cat id opName).thenF
        (fun _ => adapterCall aenv op id pl)).thenV
      (fun data => data)).catchV .null).out = .fulfilled .null := by
  simp [applyPolicies, adapterCall, Step.thenF, Step.thenV, Step.catchV,
    hp, ha]

theorem chainC_adapterFail (penv : PolicyEnv) (aenv : AdapterEnv) (rv : JVal)
    (cat id opName : String) (op : AdapterOp) (pl : List JVal)
    (hp : penv cat id opName = .fulfilled ())
    (ha : aenv op id pl = .rejected) :
    (((applyPolicies penv rv cat id opName).thenF
        (fun _ => adapterCall aenv op id pl)).catchV .null).out =
      .fulfilled .null := by
  simp [applyPolicies, adapterCall, Step.thenF, Step.catchV, hp, ha]

theorem failSoftV (penv : PolicyEnv) (aenv : AdapterEnv) (rv : JVal)
    (cat id opName : String) (op : AdapterOp) (pl : List JVal) :
    ((∀ c2 i2 o2, penv c2 i2 o2 = .rejected) →
      (((applyPolicies penv rv cat id opName).thenF
          (fun _ => adapterCall aenv op id pl)).thenV
        (fun data => data)).catchV .null = ⟨[], .fulfilled .null⟩) ∧
    ((∀ c2 i2 o2, penv c2 i2 o2 = .fulfilled ()) →
      (∀ o2 i2 p2, aenv o2 i2 p2 = .rejected) →
      (((((applyPolicies penv rv cat id opName).thenF
          (fun _ => adapterCall aenv op id pl)).thenV
        (fun data => data)).catchV .null).out = .fulfilled .null)) :=
  ⟨fun h => chainV_reject penv aenv rv cat id opName op pl (h cat id opName),
   fun hp ha => chainV_adapterFail penv aenv rv cat id opName op pl
     (hp cat id opName) (ha op id pl)⟩

theorem failSoftC (penv : PolicyEnv) (aenv : AdapterEnv) (rv : JVal)
    (cat id opName : String) (op : AdapterOp) (pl : List JVal) :
    ((∀ c2 i2 o2, penv c2 i2 o2 = .rejected) →
      ((applyPolicies penv rv cat id opName).thenF
          (fun _ => adapterCall aenv op id pl)).catchV .null =
        ⟨[], .fulfilled .null⟩) ∧
    ((∀ c2 i2 o2, penv c2 i2 o2 = .fulfilled ()) →
      (∀ o2 i2 p2, aenv o2 i2 p2 = .rejected) →
      ((((applyPolicies penv rv cat id opName).thenF
          (fun _ => adapterCall aenv op id pl)).catchV .null).out =
        .fulfilled .null)) :=
  ⟨fun h => chainC_reject penv aenv rv cat id opName op pl (h cat id opName),
   fun hp ha => chainC_adapterFail penv aenv rv cat id opName op pl
     (hp cat id opName) (ha op id pl)⟩

/-- C3 Every generated resolver, for queries and for mutations, fails soft:
if the Policy Gate rejects every check then the resolver settles fulfilled
with null having performed no adapter invocation, and if the gate accepts but
the adapter operation rejects then the resolver still settles fulfilled with
null rather than propagating the failure.  The singular getter is the
instance at the lower-cased collection identity, whose adapter operation is
fetch. -/
theorem c3_resolvers_fail_soft (useful : Bool) (c : Collection) (n : String)
    (f : FieldDef)
    (hf : (buildQueryFieldsFor useful c).lookup n = some f ∨
      (buildMutationFields c).lookup n = some f)
    (r : Resolver) (hr : f.resolve = some r) (rv cr : JVal)
    (penv : PolicyEnv) (aenv : AdapterEnv) :
    ((∀ cat id opName, penv cat id opName = .rejected) →
      r rv cr penv aenv = ⟨[], .fulfilled .null⟩) ∧
    ((∀ cat id opName, penv cat id opName = .fulfilled ()) →
      (∀ op id pl, aenv op id pl = .rejected) →
      (r rv cr penv aenv).out = .fulfilled .null) := by
  rcases hf with hq | hm
  · rw [lookup_fieldsFor] at hq
    split_ifs at hq with e1 e2 e3 e4 e5
    · cases hq
      have hr2 := Option.some.inj
        (show some (singularResolve c.identity) = some r from hr)
      subst hr2
      exact failSoftV penv aenv rv "queries" c.identity c.identity .fetch [cr]
    · cases hq
      have hr2 := Option.some.inj
        (show some (pluralResolve c.identity) = some r from hr)
      subst hr2
      exact failSoftV penv aenv rv "queries" c.identity (c.identity ++ "s")
        .fetchAll [cr]
    · cases hq
      have hr2 := Option.some.inj
        (show some (getLatestResolve c.identity) = some r from hr)
      subst hr2
      exact failSoftV penv aenv rv "queries" c.identity
        ("getLatest" ++ c.identity ++ "s") .fetchLatest [cr]
    · cases hq
      have hr2 := Option.some.inj
        (show some (getFirstResolve c.identity) = some r from hr)
      subst hr2
      exact failSoftV penv aenv rv "queries" c.identity
        ("getFirst" ++ c.identity ++ "s") .fetchFirst [cr]
    · cases hq
      have hr2 := Option.some.inj
        (show some (countResolve c.identity) = some r from hr)
      subst hr2
      exact failSoftV penv aenv rv "queries" c.identity
        ("count" ++ c.identity ++ "s") .count []
  · rw [lookup_mutationFields] at hm
    split_ifs at hm with e1 e2 e3
    · cases hm
      have hr2 := Option.some.inj
        (show some (createResolve c.identity) = some r from hr)
      subst hr2
      exact failSoftC penv aenv rv "mutations" c.identity
        ("create" ++ c.identity) .create [rv, cr]
    · cases hm
      have hr2 := Option.some.inj
        (show some (updateResolve c.identity) = some r from hr)
      subst hr2
      exact failSoftV penv aenv rv "mutations" c.identity
        ("update" ++ c.identity) .update [rv, cr]
    · cases hm
      have hr2 := Option.some.inj
        (show some (deleteResolve c.identity) = some r from hr)
      subst hr2
      exact failSoftV penv aenv rv "mutations" c.identity
        ("delete" ++ c.identity) .delete [rv, cr]

theorem c3_resolvers_fail_soft_witness :
    (buildQueryFieldsFor true articleC).lookup "article" =
        some (singularField articleC) ∧
    (singularField articleC).resolve = some (singularResolve "Article") ∧
    singularResolve "Article" JVal.null JVal.null (fun _ _ _ => .rejected)
        (fun _ _ _ => .rejected) = ⟨[], .fulfilled .null⟩ :=
  ⟨rfl, rfl,
   (c3_resolvers_fail_soft true articleC "article" (singularField articleC)
     (Or.inl rfl) (singularResolve "Article") rfl JVal.null JVal.null
     (fun _ _ _ => .rejected) (fun _ _ _ => .rejected)).1
     (fun _ _ _ => rfl)⟩

/-- C4 For every collection, every query field the builder generates except
the singular getter (the field keyed by the lower-cased collection identity)
carries start and end arguments of string type, injected by the date-filter
pass after the own arguments of the field, with an absent argument object
first initialized to the empty map (the count field is such an instance). -/
theorem c4_date_filter_args (useful : Bool) (c : Collection) (n : String)
    (f : FieldDef)
    (hf : (buildQueryFieldsFor useful c).lookup n = some f)
    (hn : n ≠ jsToLower c.identity) :
    ∃ l, f.args = some l ∧ l.lookup "start" = some .gstring ∧
      l.lookup "end" = some .gstring := by
  rw [lookup_fieldsFor] at hf
  split_ifs at hf with e1 e2 e3 e4 e5
  · exact absurd e1 hn
  · cases hf; exact ⟨_, rfl, rfl, rfl⟩
  · cases hf; exact ⟨_, rfl, rfl, rfl⟩
  · cases hf; exact ⟨_, rfl, rfl, rfl⟩
  · cases hf; exact ⟨_, rfl, rfl, rfl⟩

theorem c4_date_filter_args_witness :
    ("countArticles" : String) ≠ jsToLower articleC.identity ∧
    ∃ l, (addDates (countField articleC)).args = some l ∧
      l.lookup "start" = some .gstring ∧ l.lookup "end" = some .gstring :=
  ⟨by decide,
   c4_date_filter_args true articleC "countArticles"
     (addDates (countField articleC)) rfl (by decide)⟩

/-- C1 Evidence against the claim on create-mutation arguments: the builder
assigns the create field only a type and a resolver, so even for the Article
collection with its required scalar title the create field has no argument
object at all, although the required partition it computes does hold title as
a non-null query-mapped argument. -/
theorem c1_create_field_has_no_args :
    ((buildMutationFields articleC).lookup ("create" ++ articleC.identity)).map
        FieldDef.args = some none ∧
    (buildArgs articleC.attributes).1.lookup "title" =
      some (.nonNull (.queryMapped (.rule (.scalar "string" true)))) :=
  ⟨rfl, rfl⟩

/-- C2 Evidence against the claim on has-many resolution: resolving the
articles field of the generated Author type on the author row with id a1,
with an accepting Policy Gate, invokes fetchAll on Article with the empty
object as criteria, because the where-filter the resolver builds is passed as
a third argument the plural resolver does not bind; in particular the
criteria is not the where-filter the claim requires. -/
theorem c2_hasMany_criteria_dropped :
    authorArticlesStep.trace = [⟨.fetchAll, "Article", [JVal.obj []]⟩] ∧
    JVal.obj [] ≠
      JVal.obj [("where", JVal.obj [("authorid", JVal.str "a1")])] :=
  ⟨rfl, by simp⟩

theorem mutKeys_ne (c : Collection) :
    ("update" ++ c.identity : String) ≠ "create" ++ c.identity ∧
    ("delete" ++ c.identity : String) ≠ "create" ++ c.identity ∧
    ("delete" ++ c.identity : String) ≠ "update" ++ c.identity := by
  refine ⟨?_, ?_, ?_⟩ <;>
    (intro he
     have := congrArg String.data he
     simp [String.data_append] at this)

/-- C8 For every collection, the update and the delete mutation fields carry
an argument set equal to their partition (required for update, optional for
delete) with the primary-key argument assigned over it afterwards, and that
primary-key argument is non-null and produced by the query type mapper (the
scalar rule path) applied at the primary key, not by the relation-argument
mapper. -/
theorem c8_update_delete_pk_arg (c : Collection) :
    ((buildMutationFields c).lookup ("update" ++ c.identity)).map
        FieldDef.args =
      some (some (jsAssign (buildArgs c.attributes).1 (argPK c))) ∧
    ((buildMutationFields c).lookup ("delete" ++ c.identity)).map
        FieldDef.args =
      some (some (jsAssign (buildArgs c.attributes).2 (argPK c))) ∧
    (jsAssign (buildArgs c.attributes).1 (argPK c)).lookup c.primaryKey =
      some (.nonNull (.queryMapped (.raw c.primaryKey))) ∧
    (jsAssign (buildArgs c.attributes).2 (argPK c)).lookup c.primaryKey =
      some (.nonNull (.queryMapped (.raw c.primaryKey))) := by
  obtain ⟨huc, hdc, hdu⟩ := mutKeys_ne c
  refine ⟨?_, ?_, ?_, ?_⟩
  · rw [lookup_mutationFields, if_neg huc, if_pos rfl]
    rfl
  · rw [lookup_mutationFields, if_neg hdc, if_neg hdu, if_pos rfl]
    rfl
  · rw [show jsAssign (buildArgs c.attributes).1 (argPK c) =
        jsSet (buildArgs c.attributes).1 c.primaryKey
          (.nonNull (.queryMapped (.raw c.primaryKey))) from rfl,
      lookup_jsSet, if_pos rfl]
  · rw [show jsAssign (buildArgs c.attributes).2 (argPK c) =
        jsSet (buildArgs c.attributes).2 c.primaryKey
          (.nonNull (.queryMapped (.raw c.primaryKey))) from rfl,
      lookup_jsSet, if_pos rfl]

theorem schema_ok_queryFields (st : Defaults) (p : Params)
    (h : ¬(p.collections.isEmpty = true)) :
    ∃ s, (getGraphQLSchema st p).2 = .ok s ∧
      s.queryFields =
        buildQueryFieldsPass (p.usefulQueries.getD st.usefulQueries)
          p.collections := by
  simp only [getGraphQLSchema, h, if_false]
  by_cases hm : (getQueries (mergeParams st p)).ignoreMutations = true
  · rw [if_pos hm]
    exact ⟨_, rfl, rfl⟩
  · rw [if_neg hm]
    exact ⟨_, rfl, rfl⟩

theorem schema_state_nodeFields (st : Defaults) (p : Params)
    (h : ¬(p.collections.isEmpty = true)) :
    (getGraphQLSchema st p).1.nodeFields = some nodeFieldsDef := by
  simp only [getGraphQLSchema, h, if_false]
  by_cases hm : (getQueries (mergeParams st p)).ignoreMutations = true
  · rw [if_pos hm]
    rfl
  · rw [if_neg hm]
    rfl

/-- C5 If the supplied collection mapping is empty, the build fails through
the error channel of the callback with the no-models message and no schema is
produced; if it is non-empty, a schema value is handed to the callback. -/
theorem c5_empty_collections (st : Defaults) (p : Params) :
    (p.collections = [] →
      (getGraphQLSchema st p).2 =
        .error
          "GraphQL server has not been started because there are no models") ∧
    (p.collections ≠ [] → ∃ s, (getGraphQLSchema st p).2 = .ok s) := by
  constructor
  · intro h
    simp [getGraphQLSchema, h]
  · intro h
    have he : ¬(p.collections.isEmpty = true) := by
      simp [List.isEmpty_iff, h]
    obtain ⟨s, hs, _⟩ := schema_ok_queryFields st p he
    exact ⟨s, hs⟩

theorem c5_empty_collections_witness :
    (Params.mk [] none none).collections = [] ∧
    (getGraphQLSchema defaults0 (Params.mk [] none none)).2 =
      .error
        "GraphQL server has not been started because there are no models" ∧
    scenarioParams.collections ≠ [] ∧
    ∃ s, (getGraphQLSchema defaults0 scenarioParams).2 = .ok s :=
  ⟨rfl,
   (c5_empty_collections defaults0 (Params.mk [] none none)).1 rfl,
   by decide,
   (c5_empty_collections defaults0 scenarioParams).2 (by decide)⟩

/-- C6 When ignoreMutations is strictly true the built schema has no mutation
root; when the option is absent (the module default being absent, which the
strict comparison treats as false) or false, the schema has a mutation root
holding exactly the fields of the mutation pass over the supplied
collections. -/
theorem c6_ignore_mutations (p : Params) (h : p.collections ≠ []) :
    ∃ s, (getGraphQLSchema defaults0 p).2 = .ok s ∧
      s.mutation = if p.ignoreMutations = some true then none
        else some (buildMutationsPass p.collections) := by
  have he : ¬(p.collections.isEmpty = true) := by
    simp [List.isEmpty_iff, h]
  have hig : (getQueries (mergeParams defaults0 p)).ignoreMutations =
      p.ignoreMutations.getD false := rfl
  simp only [getGraphQLSchema, he, if_false]
  by_cases hm : p.ignoreMutations = some true
  · have ht : (getQueries (mergeParams defaults0 p)).ignoreMutations = true := by
      rw [hig, hm]
      rfl
    rw [if_pos ht]
    exact ⟨_, rfl, by rw [if_pos hm]⟩
  · have ht : ¬((getQueries (mergeParams defaults0 p)).ignoreMutations
        = true) := by
      rw [hig]
      cases hio : p.ignoreMutations with
      | none => simp
      | some b => cases b <;> simp_all
    rw [if_neg ht]
    refine ⟨_, rfl, ?_⟩
    rw [if_neg hm]
    rfl

theorem c6_ignore_mutations_witness :
    scenarioParams.collections ≠ [] ∧
    (∃ s, (getGraphQLSchema defaults0 scenarioParams).2 = .ok s ∧
      s.mutation = some (buildMutationsPass scenarioParams.collections)) ∧
    (Params.mk scenarioParams.collections none (some true)).collections
        ≠ [] ∧
    ∃ s2,
      (getGraphQLSchema defaults0
          (Params.mk scenarioParams.collections none (some true))).2 =
        .ok s2 ∧ s2.mutation = none := by
  refine ⟨by decide, ?_, by decide, ?_⟩
  · obtain ⟨s, hs, hmu⟩ :=
      c6_ignore_mutations scenarioParams (by decide)
    exact ⟨s, hs, by rw [hmu]; rfl⟩
  · obtain ⟨s, hs, hmu⟩ :=
      c6_ignore_mutations
        (Params.mk scenarioParams.collections none (some true)) (by decide)
    exact ⟨s, hs, by rw [hmu]; rfl⟩

/-- C9 Counterexample to the fresh-registry claim: building once with
usefulQueries false, then building again with the same collections but the
option omitted, yields a schema without the useful-query fields, while a
fresh build of the very same second parameters yields them; the first call
influenced the second beyond its own parameters. -/
theorem c9_rebuild_counterexample :
    okNames (getGraphQLSchema rebuildState rebuildP2).2 ≠
      okNames (getGraphQLSchema defaults0 rebuildP2).2 := by
  decide

/-- C9 Amended: the defaults registry is a persistent module object merged
with the parameters of each call; the collection set is replaced per call and
every derived table is rebuilt, but an option value from an earlier call
persists when the later call omits it.  Consequently, whenever a call
supplies both usefulQueries and ignoreMutations explicitly, its outcome is
identical to a fresh build of the same parameters, whatever state an earlier
call left behind. -/
theorem c9_rebuild_with_explicit_options (st : Defaults) (p : Params)
    (hu : p.usefulQueries.isSome) (hi : p.ignoreMutations.isSome) :
    (getGraphQLSchema st p).2 = (getGraphQLSchema defaults0 p).2 := by
  obtain ⟨u, hu2⟩ := Option.isSome_iff_exists.mp hu
  obtain ⟨i, hi2⟩ := Option.isSome_iff_exists.mp hi
  by_cases he : p.collections.isEmpty = true
  · simp [getGraphQLSchema, he]
  · simp only [getGraphQLSchema, he, if_false]
    have hmrg : ∀ st0 : Defaults, mergeParams st0 p =
        { st0 with
            collections := p.collections
            usefulQueries := u
            ignoreMutations := i } := by
      intro st0
      simp [mergeParams, hu2, hi2]
    rw [hmrg st, hmrg defaults0]
    cases i <;> rfl

theorem c9_rebuild_with_explicit_options_witness :
    (some true : Option Bool).isSome = true ∧
    (getGraphQLSchema rebuildState
        (Params.mk [("article", articleC)] (some true) (some false))).2 =
      (getGraphQLSchema defaults0
        (Params.mk [("article", articleC)] (some true) (some false))).2 :=
  ⟨rfl,
   c9_rebuild_with_explicit_options rebuildState
     (Params.mk [("article", articleC)] (some true) (some false)) rfl rfl⟩

theorem prefix_upper_ne {u : Char} (pre idA : String)
    (hpre : u ∈ pre.data) (hu : ∀ c, lowerChar c ≠ u) (hus : u ≠ 's')
    (x : String) :
    (pre ++ idA ++ "s" ≠ jsToLower x) ∧
    (pre ++ idA ++ "s" ≠ jsToLower x ++ "s") := by
  have hmem : u ∈ (pre ++ idA ++ "s").data := by
    rw [String.data_append, String.data_append]
    exact List.mem_append_left _ (List.mem_append_left _ hpre)
  constructor
  · intro he
    rw [he] at hmem
    exact not_mem_jsToLower hu x hmem
  · intro he
    rw [he, String.data_append] at hmem
    rcases List.mem_append.mp hmem with hl | hr
    · exact not_mem_jsToLower hu x hl
    · exact hus (by simpa using hr)

theorem node_ne_lower (x : String) : ("Node" : String) ≠ jsToLower x := by
  intro he
  have hmem : 'N' ∈ ("Node" : String).data := by decide
  rw [he] at hmem
  exact not_mem_jsToLower (fun c => (lowerChar_ne_upper c).2.2) x hmem

theorem node_ne_lower_s (x : String) :
    ("Node" : String) ≠ jsToLower x ++ "s" := by
  intro he
  have hmem : 'N' ∈ ("Node" : String).data := by decide
  rw [he, String.data_append] at hmem
  rcases List.mem_append.mp hmem with hl | hr
  · exact not_mem_jsToLower (fun c => (lowerChar_ne_upper c).2.2) x hl
  · simp at hr

theorem node_ne_affixed (pre idA : String) (hlen : 5 ≤ pre.length) :
    ("Node" : String) ≠ pre ++ idA ++ "s" := by
  apply string_ne_of_length
  have hn : ("Node" : String).length = 4 := rfl
  have hs : ("s" : String).length = 1 := rfl
  simp [String.length_append, hn, hs]
  omega

theorem queryPass_lookup_none_of (useful : Bool)
    (cols : List (String × Collection)) (name : String)
    (hno : ∀ kc ∈ cols,
      (buildQueryFieldsFor useful kc.2).lookup name = none) :
    (buildQueryFieldsPass useful cols).lookup name = none := by
  rw [← Option.not_isSome_iff_eq_none]
  intro hc
  rcases (lookup_isSome_queryPass useful cols name).mp hc with ⟨kc, hkc, hsm⟩
  rw [hno kc hkc] at hsm
  simp at hsm

theorem fieldsFor_useless_none (c2 : Collection) (name : String)
    (h1 : name ≠ jsToLower c2.identity)
    (h2 : name ≠ jsToLower c2.identity ++ "s") :
    (buildQueryFieldsFor false c2).lookup name = none := by
  rw [lookup_fieldsFor, if_neg h1, if_neg h2,
    if_neg (fun hc => absurd hc.1 (by decide)),
    if_neg (fun hc => absurd hc.1 (by decide)),
    if_neg (fun hc => absurd hc.1 (by decide))]

theorem fieldsFor_node_none (useful : Bool) (c2 : Collection) :
    (buildQueryFieldsFor useful c2).lookup "Node" = none := by
  rw [lookup_fieldsFor, if_neg (node_ne_lower c2.identity),
    if_neg (node_ne_lower_s c2.identity),
    if_neg (fun hc =>
      node_ne_affixed "getLatest" c2.identity (by decide) hc.2),
    if_neg (fun hc =>
      node_ne_affixed "getFirst" c2.identity (by decide) hc.2),
    if_neg (fun hc => node_ne_affixed "count" c2.identity (by decide) hc.2)]

theorem fieldsFor_true_isSome (c : Collection) :
    ((buildQueryFieldsFor true c).lookup (jsToLower c.identity)).isSome ∧
    ((buildQueryFieldsFor true c).lookup
      (jsToLower c.identity ++ "s")).isSome ∧
    ((buildQueryFieldsFor true c).lookup
      ("getLatest" ++ c.identity ++ "s")).isSome ∧
    ((buildQueryFieldsFor true c).lookup
      ("getFirst" ++ c.identity ++ "s")).isSome ∧
    ((buildQueryFieldsFor true c).lookup
      ("count" ++ c.identity ++ "s")).isSome := by
  obtain ⟨h1, h2, h3, h4, h5, h6, h7, h8, h9, h10⟩ := queryKeys_ne c
  refine ⟨?_, ?_, ?_, ?_, ?_⟩
  · rw [lookup_fieldsFor, if_pos rfl]
    rfl
  · rw [lookup_fieldsFor, if_neg h1, if_pos rfl]
    rfl
  · rw [lookup_fieldsFor, if_neg h2, if_neg h5, if_pos ⟨rfl, rfl⟩]
    rfl
  · rw [lookup_fieldsFor, if_neg h3, if_neg h6,
      if_neg (fun hc => h8 hc.2), if_pos ⟨rfl, rfl⟩]
    rfl
  · rw [lookup_fieldsFor, if_neg h4, if_neg h7,
      if_neg (fun hc => h9 hc.2), if_neg (fun hc => h10 hc.2),
      if_pos ⟨rfl, rfl⟩]
    rfl

/-- C7 When usefulQueries is supplied false, the query field set of the
build holds only base fields: every present name is the lower-cased identity
or its plural for some collection (so no getLatest/getFirst/count variant is
generated), the getLatest and getFirst names are absent outright, and the
count name is absent whenever no base name of another collection coincides
with it.  When usefulQueries is true or absent (the stored default being
true), all five fields are present for every collection. -/
theorem c7_useful_queries (p : Params) (h : p.collections ≠ []) :
    ∃ s, (getGraphQLSchema defaults0 p).2 = .ok s ∧
      ((p.usefulQueries = some false →
        (∀ n, (s.queryFields.lookup n).isSome →
          ∃ kc ∈ p.collections,
            (n = jsToLower kc.2.identity ∨
             n = jsToLower kc.2.identity ++ "s")) ∧
        (∀ kc ∈ p.collections,
          s.queryFields.lookup ("getLatest" ++ kc.2.identity ++ "s")
              = none ∧
          s.queryFields.lookup ("getFirst" ++ kc.2.identity ++ "s")
              = none) ∧
        (∀ kc ∈ p.collections,
          (∀ kc2 ∈ p.collections,
            "count" ++ kc.2.identity ++ "s" ≠ jsToLower kc2.2.identity ∧
            "count" ++ kc.2.identity ++ "s" ≠
              jsToLower kc2.2.identity ++ "s") →
          s.queryFields.lookup ("count" ++ kc.2.identity ++ "s") = none)) ∧
      (p.usefulQueries.getD true = true →
        ∀ kc ∈ p.collections,
          (s.queryFields.lookup (jsToLower kc.2.identity)).isSome ∧
          (s.queryFields.lookup (jsToLower kc.2.identity ++ "s")).isSome ∧
          (s.queryFields.lookup
            ("getLatest" ++ kc.2.identity ++ "s")).isSome ∧
          (s.queryFields.lookup
            ("getFirst" ++ kc.2.identity ++ "s")).isSome ∧
          (s.queryFields.lookup
            ("count" ++ kc.2.identity ++ "s")).isSome)) := by
  have he : ¬(p.collections.isEmpty = true) := by
    simp [List.isEmpty_iff, h]
  obtain ⟨s, hs, hq⟩ := schema_ok_queryFields defaults0 p he
  refine ⟨s, hs, ?_, ?_⟩
  · intro hu
    rw [hq, hu]
    simp only [Option.getD_some]
    refine ⟨?_, ?_, ?_⟩
    · intro n hn
      rcases (lookup_isSome_queryPass false p.collections n).mp hn with
        ⟨kc, hkc, hsm⟩
      rw [lookup_fieldsFor] at hsm
      split_ifs at hsm with e1 e2 e3 e4 e5
      · exact ⟨kc, hkc, Or.inl e1⟩
      · exact ⟨kc, hkc, Or.inr e2⟩
      · exact absurd e3.1 (by decide)
      · exact absurd e4.1 (by decide)
      · exact absurd e5.1 (by decide)
      · simp at hsm
    · intro kc _
      constructor
      · apply queryPass_lookup_none_of
        intro kc2 _
        have hpair := prefix_upper_ne "getLatest" kc.2.identity
          (by decide) (fun c => (lowerChar_ne_upper c).1) (by decide)
          kc2.2.identity
        exact fieldsFor_useless_none kc2.2 _ hpair.1 hpair.2
      · apply queryPass_lookup_none_of
        intro kc2 _
        have hpair := prefix_upper_ne "getFirst" kc.2.identity
          (by decide) (fun c => (lowerChar_ne_upper c).2.1) (by decide)
          kc2.2.identity
        exact fieldsFor_useless_none kc2.2 _ hpair.1 hpair.2
    · intro kc _ hnc
      apply queryPass_lookup_none_of
      intro kc2 hkc2
      exact fieldsFor_useless_none kc2.2 _ (hnc kc2 hkc2).1 (hnc kc2 hkc2).2
  · intro hu kc hkc
    rw [hq, show p.usefulQueries.getD defaults0.usefulQueries = true from hu]
    obtain ⟨g1, g2, g3, g4, g5⟩ := fieldsFor_true_isSome kc.2
    exact ⟨(lookup_isSome_queryPass true p.collections _).mpr ⟨kc, hkc, g1⟩,
      (lookup_isSome_queryPass true p.collections _).mpr ⟨kc, hkc, g2⟩,
      (lookup_isSome_queryPass true p.collections _).mpr ⟨kc, hkc, g3⟩,
      (lookup_isSome_queryPass true p.collections _).mpr ⟨kc, hkc, g4⟩,
      (lookup_isSome_queryPass true p.collections _).mpr ⟨kc, hkc, g5⟩⟩

theorem c7_useful_queries_witness :
    scenarioParams.collections ≠ [] ∧
    ∃ s, (getGraphQLSchema defaults0 scenarioParams).2 = .ok s ∧
      (s.queryFields.lookup "getLatestArticles").isSome := by
  obtain ⟨s, hs, _, hpres⟩ :=
    c7_useful_queries scenarioParams (by decide)
  refine ⟨by decide, s, hs, ?_⟩
  have := hpres rfl ("article", articleC) (by decide)
  simpa using this.2.2.1

/-- C10 The Node lookup descriptor built by buildNodeInterface lands only in
the nodeFields slot of the registry: after any build, every name present in
the root query field set is one of the five per-collection derived names, and
the Node name in particular is absent from the query set while the stored
descriptor sits in nodeFields. -/
theorem c10_node_not_in_queries (st : Defaults) (p : Params)
    (h : p.collections ≠ []) :
    (getGraphQLSchema st p).1.nodeFields = some nodeFieldsDef ∧
    ∃ s, (getGraphQLSchema st p).2 = .ok s ∧
      (∀ n, (s.queryFields.lookup n).isSome →
        ∃ kc ∈ p.collections,
          (n = jsToLower kc.2.identity ∨
           n = jsToLower kc.2.identity ++ "s" ∨
           n = "getLatest" ++ kc.2.identity ++ "s" ∨
           n = "getFirst" ++ kc.2.identity ++ "s" ∨
           n = "count" ++ kc.2.identity ++ "s")) ∧
      s.queryFields.lookup "Node" = none := by
  have he : ¬(p.collections.isEmpty = true) := by
    simp [List.isEmpty_iff, h]
  obtain ⟨s, hs, hq⟩ := schema_ok_queryFields st p he
  refine ⟨schema_state_nodeFields st p he, s, hs, ?_, ?_⟩
  · intro n hn
    rw [hq] at hn
    rcases (lookup_isSome_queryPass _ p.collections n).mp hn with
      ⟨kc, hkc, hsm⟩
    rw [lookup_fieldsFor] at hsm
    split_ifs at hsm with e1 e2 e3 e4 e5
    · exact ⟨kc, hkc, Or.inl e1⟩
    · exact ⟨kc, hkc, Or.inr (Or.inl e2)⟩
    · exact ⟨kc, hkc, Or.inr (Or.inr (Or.inl e3.2))⟩
    · exact ⟨kc, hkc, Or.inr (Or.inr (Or.inr (Or.inl e4.2)))⟩
    · exact ⟨kc, hkc, Or.inr (Or.inr (Or.inr (Or.inr e5.2)))⟩
    · simp at hsm
  · rw [hq]
    apply queryPass_lookup_none_of
    intro kc2 _
    exact fieldsFor_node_none _ kc2.2

theorem c10_node_not_in_queries_witness :
    scenarioParams.collections ≠ [] ∧
    (getGraphQLSchema defaults0 scenarioParams).1.nodeFields =
      some nodeFieldsDef ∧
    ∃ s, (getGraphQLSchema defaults0 scenarioParams).2 = .ok s ∧
      s.queryFields.lookup "Node" = none := by
  obtain ⟨hnf, s, hs, _, hnode⟩ :=
    c10_node_not_in_queries defaults0 scenarioParams (by decide)
  exact ⟨by decide, hnf, s, hs, hnode⟩

end Strapi
